import Mathlib

/-!
Shallow embedding of the dual-mode spin-lock layer in `src/mutex.rs`:
the global Gate (`RAW_ATOMICS_ENABLED`), the `RawSpinLock` spin mutex with
its guard, and the gate-independent reader/writer packed counter
(`rw_read_lock_atomic`, `rw_write_lock_atomic`, ...).

Modelling conventions:
* Atomic memory orderings are carried as data (`MemOrdering`), and every
  atomic access to a lock word is recorded as an `AtomicEvent`, so that
  "performs no read or write of the lock state" is expressed as an empty
  event trace and the orderings used by each instruction are provable facts.
* `compare_exchange_weak` may fail spuriously; a `List Bool` schedule says,
  for each attempt, whether the hardware fails it spuriously.  A spin loop
  that has not yet succeeded within the schedule is `none` (still spinning).
* The machine word `usize` is modelled as `Nat` with an explicit width `w`:
  values live in `[0, 2^w)` and wrapping subtraction is `% 2^w`.
-/

namespace Mutex

/-- Rust `std::sync::atomic::Ordering`. -/
inductive MemOrdering
  | Relaxed
  | Acquire
  | Release
  | AcqRel
  | SeqCst
deriving DecidableEq, Repr

/-- One atomic access to the binary lock word of a `RawSpinLock`. -/
inductive AtomicEvent
  | casBool (expected new : Bool) (success failure : MemOrdering) (ok : Bool)
  | storeBool (value : Bool) (ord : MemOrdering)
  | spinHint
deriving DecidableEq, Repr

/-! ### The Gate (`RAW_ATOMICS_ENABLED`) -/

/-- `static RAW_ATOMICS_ENABLED: SyncUnsafeCell<bool> = SyncUnsafeCell::new(false)`. -/
def RAW_ATOMICS_ENABLED_INIT : Bool := false

/-- `raw_atomics_enabled()`: reads the gate flag. -/
def raw_atomics_enabled (gate : Bool) : Bool := gate

/-- `enable_raw_atomics()`: unconditionally writes `true` to the gate. -/
def enable_raw_atomics (_gate : Bool) : Bool := true

/-- `disable_raw_atomics()` (test-only): unconditionally writes `false`. -/
def disable_raw_atomics (_gate : Bool) : Bool := false

/-! ### `lock_atomic` / `unlock_atomic` on the binary lock word -/

/-- `AtomicBool::compare_exchange_weak(expected, new, success, failure)`:
returns the new lock word, whether the exchange succeeded, and the recorded
event.  `spurious = true` makes this attempt fail spuriously (weak CAS). -/
def compare_exchange_weak (locked expected new : Bool)
    (success failure : MemOrdering) (spurious : Bool) :
    Bool × Bool × AtomicEvent :=
  if locked = expected ∧ spurious = false then
    (new, true, AtomicEvent.casBool expected new success failure true)
  else
    (locked, false, AtomicEvent.casBool expected new success failure false)

/-- `lock_atomic`: spin until a weak CAS from `false` to `true` succeeds,
`Acquire` on success, `Relaxed` on failure, with a spin hint between
attempts.  `none` means the schedule ran out while still spinning. -/
def lock_atomic : List Bool → Bool → Option (Bool × List AtomicEvent)
  | [], _ => none
  | spurious :: rest, locked =>
    match compare_exchange_weak locked false true
        MemOrdering.Acquire MemOrdering.Relaxed spurious with
    | (locked1, true, ev) => some (locked1, [ev])
    | (locked1, false, ev) =>
      match lock_atomic rest locked1 with
      | some (lockedFinal, evs) =>
        some (lockedFinal, ev :: AtomicEvent.spinHint :: evs)
      | none => none

/-- `unlock_atomic`: a single `store(false, Release)`. -/
def unlock_atomic (_locked : Bool) : Bool × List AtomicEvent :=
  (false, [AtomicEvent.storeBool false MemOrdering.Release])

/-! ### `RawSpinLock` and its guard -/

/-- The program state relevant to a `RawSpinLock`: the global gate flag and
the mutex's `locked: AtomicBool` word. -/
structure MutexState where
  gate : Bool
  locked : Bool
deriving DecidableEq, Repr

/-- `RawSpinLockGuard`: records the single boolean captured at acquisition
time that decides whether dropping the guard performs an atomic unlock. -/
structure RawSpinLockGuard where
  unlock_on_drop : Bool
deriving DecidableEq, Repr

/-- `RawSpinLock::new` starts with the lock word clear. -/
def RawSpinLock.new_locked : Bool := false

/-- `RawSpinLock::lock`: reads the gate once into `unlock_on_drop`; if set,
runs `lock_atomic` on the lock word; returns the new state, the guard, and
the trace of atomic accesses to the lock word. -/
def RawSpinLock.lock (sched : List Bool) (s : MutexState) :
    Option (MutexState × RawSpinLockGuard × List AtomicEvent) :=
  let u := raw_atomics_enabled s.gate
  if u then
    match lock_atomic sched s.locked with
    | some (locked1, evs) => some ({ s with locked := locked1 }, ⟨u⟩, evs)
    | none => none
  else
    some (s, ⟨u⟩, [])

/-- `unsafe RawSpinLock::no_lock`: returns a guard with `unlock_on_drop =
false` without touching the lock word. -/
def RawSpinLock.no_lock (s : MutexState) :
    MutexState × RawSpinLockGuard × List AtomicEvent :=
  (s, ⟨false⟩, [])

/-- Test-only `RawSpinLock::is_locked` query. -/
def RawSpinLock.is_locked (s : MutexState) : Bool := s.locked

/-- `Drop for RawSpinLockGuard`: calls `unlock_atomic` iff the captured
`unlock_on_drop` is set; the gate in `s` is NOT consulted. -/
def RawSpinLockGuard.drop (g : RawSpinLockGuard) (s : MutexState) :
    MutexState × List AtomicEvent :=
  if g.unlock_on_drop then
    match unlock_atomic s.locked with
    | (locked1, evs) => ({ s with locked := locked1 }, evs)
  else
    (s, [])

/-! ### The `SpinRwLock` packed counter -/

/-- `const WRITE_FLAG: usize = 1 << (usize::BITS - 1)`, word width `w`. -/
def WRITE_FLAG (w : Nat) : Nat := 1 <<< (w - 1)

/-- `!WRITE_FLAG`: bitwise complement on a `w`-bit word is `2^w - 1 - x`. -/
def NOT_WRITE_FLAG (w : Nat) : Nat := 2 ^ w - 1 - WRITE_FLAG w

/-- `usize::checked_add` on a `w`-bit word. -/
def checked_add (w a b : Nat) : Option Nat :=
  if a + b < 2 ^ w then some (a + b) else none

/-- One iteration of `rw_read_lock_atomic` from the loaded state `s`:
`some next` when the CAS to `next` succeeds, `none` when this iteration
spins (write flag set, `checked_add` overflow, or carry into the flag
bit). -/
def rw_read_lock_try (w s : Nat) : Option Nat :=
  if s &&& WRITE_FLAG w ≠ 0 then none
  else
    match checked_add w s 1 with
    | none => none
    | some next => if next &&& WRITE_FLAG w ≠ 0 then none else some next

/-- `rw_read_unlock_atomic`: `fetch_sub(1)`, wrapping on a `w`-bit word. -/
def rw_read_unlock_atomic (w s : Nat) : Nat := (s + (2 ^ w - 1)) % 2 ^ w

/-- One iteration of the CAS phase of `rw_write_lock_atomic`: when the
write flag is clear, set it, leaving the reader bits as observed. -/
def rw_write_lock_try (w s : Nat) : Option Nat :=
  if s &&& WRITE_FLAG w ≠ 0 then none else some (s ||| WRITE_FLAG w)

/-- Exit condition of the drain loop of `rw_write_lock_atomic`:
`state.load() & !WRITE_FLAG == 0`. -/
def rw_write_drain_done (w s : Nat) : Bool := s &&& NOT_WRITE_FLAG w == 0

/-- `rw_write_unlock_atomic`: `fetch_and(!WRITE_FLAG)`. -/
def rw_write_unlock_atomic (w s : Nat) : Nat := s &&& NOT_WRITE_FLAG w

/-- The write flag (most significant bit) of a counter state. -/
def write_flag_set (w s : Nat) : Bool := s &&& WRITE_FLAG w != 0

/-- The reader-count bits of a counter state. -/
def reader_count (w s : Nat) : Nat := s &&& NOT_WRITE_FLAG w

/-- One successful atomic mutation of the `SpinRwLock` counter: a
successful read-acquisition CAS, a read release, the successful CAS of a
write acquisition (drain not yet done), or a write release.  Spinning
iterations change no state and so contribute no step. -/
inductive RwStep (w : Nat) : Nat → Nat → Prop
  | readAcq {s t : Nat} : rw_read_lock_try w s = some t → RwStep w s t
  | readRel {s : Nat} : RwStep w s (rw_read_unlock_atomic w s)
  | writeAcqFlag {s t : Nat} : rw_write_lock_try w s = some t → RwStep w s t
  | writeRel {s : Nat} : RwStep w s (rw_write_unlock_atomic w s)

/-- Counter states reachable from the initial state `0`. -/
inductive RwReachable (w : Nat) : Nat → Prop
  | init : RwReachable w 0
  | step {s t : Nat} : RwReachable w s → RwStep w s t → RwReachable w t

/-- Full program state for the reader/writer lock: the global gate flag
plus the packed counter. -/
structure RwSysState where
  gate : Bool
  rw : Nat
deriving DecidableEq, Repr

/-- `SpinRwLock` operations over the full program state: each source
operation takes only `state: &AtomicUsize` and never reads or writes
`RAW_ATOMICS_ENABLED`, so the gate component is untouched. -/
inductive RwSysStep (w : Nat) : RwSysState → RwSysState → Prop
  | readAcq {g : Bool} {s t : Nat} :
      rw_read_lock_try w s = some t → RwSysStep w ⟨g, s⟩ ⟨g, t⟩
  | readRel {g : Bool} {s : Nat} :
      RwSysStep w ⟨g, s⟩ ⟨g, rw_read_unlock_atomic w s⟩
  | writeAcqFlag {g : Bool} {s t : Nat} :
      rw_write_lock_try w s = some t → RwSysStep w ⟨g, s⟩ ⟨g, t⟩
  | writeRel {g : Bool} {s : Nat} :
      RwSysStep w ⟨g, s⟩ ⟨g, rw_write_unlock_atomic w s⟩

end Mutex

namespace Mutex

/-! ### Theorems for the Gate and bring-up mode claims -/

/-- C6: the Gate's stored flag starts `false` (bring-up mode) at
initialization, and `enable_raw_atomics` unconditionally sets it to `true`
(no failure path), so a read of the Gate immediately after enabling returns
`true` for every prior Gate state. -/
theorem C6_gate_starts_false_enable_sets_true :
    RAW_ATOMICS_ENABLED_INIT = false ∧
    ∀ gate : Bool, raw_atomics_enabled (enable_raw_atomics gate) = true := by
  exact ⟨rfl, fun _ => rfl⟩

/-- C2: the boolean deciding whether release performs an atomic unlock is
captured once at acquisition: a guard acquired with the gate `false` has
`unlock_on_drop = false`, and its drop performs no store to the lock word
in ANY later state, in particular after the gate has been flipped to
`true`. -/
theorem C2_guard_mode_captured_at_acquisition
    (sched : List Bool) (s s1 : MutexState) (g : RawSpinLockGuard)
    (evs : List AtomicEvent) (hgate : s.gate = false)
    (hlock : RawSpinLock.lock sched s = some (s1, g, evs)) :
    g.unlock_on_drop = false ∧
    ∀ s2 : MutexState, RawSpinLockGuard.drop g s2 = (s2, []) := by
  have hred : RawSpinLock.lock sched s = some (s, ⟨false⟩, []) := by
    unfold RawSpinLock.lock
    simp [raw_atomics_enabled, hgate]
  rw [hred] at hlock
  simp only [Option.some.injEq, Prod.mk.injEq] at hlock
  obtain ⟨-, hg, -⟩ := hlock
  subst hg
  refine ⟨rfl, fun s2 => ?_⟩
  unfold RawSpinLockGuard.drop
  simp

/-- C2 witness: acquire with gate `false`, flip the gate to `true`, drop:
no store happens. -/
theorem C2_witness :
    (⟨false, false⟩ : MutexState).gate = false ∧
    RawSpinLockGuard.drop ⟨false⟩ ⟨true, false⟩ = (⟨true, false⟩, []) := by
  refine ⟨rfl, ?_⟩
  exact (C2_guard_mode_captured_at_acquisition [] ⟨false, false⟩ ⟨false, false⟩
    ⟨false⟩ [] rfl rfl).2 ⟨true, false⟩

/-- C3: in bring-up mode (gate `false`) a complete lock-then-release cycle
performs no atomic access to the lock word (empty event traces) and leaves
the whole state — in particular the lock word observed by `is_locked` —
unchanged. -/
theorem C3_bringup_lock_cycle_elided
    (sched : List Bool) (s : MutexState) (hgate : s.gate = false) :
    RawSpinLock.lock sched s = some (s, ⟨false⟩, []) ∧
    RawSpinLockGuard.drop ⟨false⟩ s = (s, []) ∧
    RawSpinLock.is_locked (RawSpinLockGuard.drop ⟨false⟩ s).1 =
      RawSpinLock.is_locked s := by
  refine ⟨?_, ?_, ?_⟩
  · unfold RawSpinLock.lock
    simp [raw_atomics_enabled, hgate]
  · unfold RawSpinLockGuard.drop
    simp
  · unfold RawSpinLockGuard.drop
    simp

/-- C3 witness: a bring-up lock/unlock cycle on a concrete state. -/
theorem C3_witness :
    (⟨false, true⟩ : MutexState).gate = false ∧
    RawSpinLock.lock [true] ⟨false, true⟩ = some (⟨false, true⟩, ⟨false⟩, []) := by
  exact ⟨rfl, (C3_bringup_lock_cycle_elided [true] ⟨false, true⟩ rfl).1⟩

/-- If the lock word is free and the schedule contains a genuine
(non-spurious) CAS attempt, `lock_atomic` succeeds, leaves the word set,
and every recorded event is a spin hint or a weak CAS from `false` to
`true` with `Acquire` ordering on success and `Relaxed` on failure. -/
theorem lock_atomic_free_succeeds (sched : List Bool) (hs : false ∈ sched) :
    ∃ evs, lock_atomic sched false = some (true, evs) ∧
      ∀ e ∈ evs, e = AtomicEvent.spinHint ∨
        ∃ ok, e = AtomicEvent.casBool false true
          MemOrdering.Acquire MemOrdering.Relaxed ok := by
  induction sched with
  | nil => cases hs
  | cons b rest ih =>
    cases b with
    | false =>
      refine ⟨[AtomicEvent.casBool false true
          MemOrdering.Acquire MemOrdering.Relaxed true], ?_, ?_⟩
      · unfold lock_atomic compare_exchange_weak
        simp
      · intro e he
        rw [List.mem_singleton] at he
        subst he
        exact Or.inr ⟨true, rfl⟩
    | true =>
      have hrest : false ∈ rest := by
        rcases List.mem_cons.mp hs with h | h
        · exact absurd h (by decide)
        · exact h
      obtain ⟨evs, hsucc, hsh⟩ := ih hrest
      refine ⟨AtomicEvent.casBool false true
            MemOrdering.Acquire MemOrdering.Relaxed false ::
          AtomicEvent.spinHint :: evs, ?_, ?_⟩
      · unfold lock_atomic compare_exchange_weak
        simp [hsucc]
      · intro e he
        rcases List.mem_cons.mp he with h | h
        · exact h ▸ Or.inr ⟨false, rfl⟩
        · rcases List.mem_cons.mp h with h2 | h2
          · exact Or.inl h2
          · exact hsh e h2

/-- C4: with the gate `true`, `RawSpinLock::lock` acquires by repeated weak
CAS of the lock word from `false` to `true` (Acquire on success, Relaxed on
failure, spin hints in between) until it succeeds, and dropping the
returned guard performs exactly one `store(false, Release)`. -/
theorem C4_raw_atomic_lock_and_release
    (sched : List Bool) (s : MutexState) (hgate : s.gate = true)
    (hfree : s.locked = false) (hsched : false ∈ sched) :
    ∃ s1 g evs,
      RawSpinLock.lock sched s = some (s1, g, evs) ∧
      s1.locked = true ∧ s1.gate = s.gate ∧ g.unlock_on_drop = true ∧
      (∀ e ∈ evs, e = AtomicEvent.spinHint ∨
        ∃ ok, e = AtomicEvent.casBool false true
          MemOrdering.Acquire MemOrdering.Relaxed ok) ∧
      (∀ s2 : MutexState, RawSpinLockGuard.drop g s2 =
        ({ s2 with locked := false },
          [AtomicEvent.storeBool false MemOrdering.Release])) := by
  obtain ⟨evs, hsucc, hsh⟩ := lock_atomic_free_succeeds sched hsched
  refine ⟨{ s with locked := true }, ⟨true⟩, evs, ?_, rfl, rfl, rfl, hsh, ?_⟩
  · unfold RawSpinLock.lock
    rw [← hfree] at hsucc
    simp [raw_atomics_enabled, hgate, hsucc]
  · intro s2
    unfold RawSpinLockGuard.drop unlock_atomic
    simp

/-- C4 witness: gate `true`, free lock, one genuine CAS attempt. -/
theorem C4_witness :
    ∃ s1 g evs,
      RawSpinLock.lock [false] ⟨true, false⟩ = some (s1, g, evs) ∧
      s1.locked = true ∧ s1.gate = (⟨true, false⟩ : MutexState).gate ∧
      g.unlock_on_drop = true ∧
      (∀ e ∈ evs, e = AtomicEvent.spinHint ∨
        ∃ ok, e = AtomicEvent.casBool false true
          MemOrdering.Acquire MemOrdering.Relaxed ok) ∧
      (∀ s2 : MutexState, RawSpinLockGuard.drop g s2 =
        ({ s2 with locked := false },
          [AtomicEvent.storeBool false MemOrdering.Release])) :=
  C4_raw_atomic_lock_and_release [false] ⟨true, false⟩ rfl rfl (by simp)

/-- C8: `no_lock` returns a guard without reading or writing the lock word
(empty trace, state returned unchanged, guard independent of the state),
and dropping that guard writes nothing in ANY later state, whatever
happened to the gate in between. -/
theorem C8_no_lock_touches_nothing (s : MutexState) :
    RawSpinLock.no_lock s = (s, ⟨false⟩, []) ∧
    ∀ s2 : MutexState,
      RawSpinLockGuard.drop (RawSpinLock.no_lock s).2.1 s2 = (s2, []) := by
  refine ⟨rfl, fun s2 => ?_⟩
  unfold RawSpinLock.no_lock RawSpinLockGuard.drop
  simp

/-! ### Bitwise facts about the packed counter -/

theorem WRITE_FLAG_eq (w : Nat) : WRITE_FLAG w = 2 ^ (w - 1) := by
  simp [WRITE_FLAG, Nat.shiftLeft_eq]

theorem two_pow_split (w : Nat) (h : 1 ≤ w) :
    2 ^ w = 2 ^ (w - 1) + 2 ^ (w - 1) := by
  have hw : w - 1 + 1 = w := Nat.succ_pred_eq_of_pos h
  calc 2 ^ w = 2 ^ (w - 1 + 1) := by rw [hw]
  _ = 2 ^ (w - 1) * 2 := pow_succ 2 (w - 1)
  _ = 2 ^ (w - 1) + 2 ^ (w - 1) := by ring

theorem land_flag_eq_zero_of_lt {w x : Nat} (hx : x < 2 ^ (w - 1)) :
    x &&& WRITE_FLAG w = 0 := by
  rw [WRITE_FLAG_eq, Nat.and_two_pow, Nat.testBit_lt_two_pow hx]
  simp

theorem land_flag_of_add {w r : Nat} (hr : r < 2 ^ (w - 1)) :
    (2 ^ (w - 1) + r) &&& WRITE_FLAG w = WRITE_FLAG w := by
  rw [WRITE_FLAG_eq, Nat.and_two_pow, Nat.testBit_two_pow_add_eq,
    Nat.testBit_lt_two_pow hr]
  simp

theorem lt_two_pow_pred_of_land_flag_eq_zero {w x : Nat} (h1 : 1 ≤ w)
    (hx : x < 2 ^ w) (h : x &&& WRITE_FLAG w = 0) : x < 2 ^ (w - 1) := by
  by_contra hge
  push_neg at hge
  have hsplit := two_pow_split w h1
  have hr : x - 2 ^ (w - 1) < 2 ^ (w - 1) := by omega
  have hflag := land_flag_of_add hr
  rw [Nat.add_sub_cancel' hge, h] at hflag
  have hpos : 0 < WRITE_FLAG w := by rw [WRITE_FLAG_eq]; positivity
  omega

theorem NOT_WRITE_FLAG_eq (w : Nat) (h : 1 ≤ w) :
    NOT_WRITE_FLAG w = 2 ^ (w - 1) - 1 := by
  have hsplit := two_pow_split w h
  rw [NOT_WRITE_FLAG, WRITE_FLAG_eq]
  omega

theorem land_NOT_WRITE_FLAG (w x : Nat) (h : 1 ≤ w) :
    x &&& NOT_WRITE_FLAG w = x % 2 ^ (w - 1) := by
  rw [NOT_WRITE_FLAG_eq w h, Nat.and_pow_two_sub_one_eq_mod]

theorem lor_WRITE_FLAG {w r : Nat} (hr : r < 2 ^ (w - 1)) :
    r ||| WRITE_FLAG w = 2 ^ (w - 1) + r := by
  rw [WRITE_FLAG_eq]
  have h := Nat.mul_add_lt_is_or hr 1
  rw [Nat.mul_one] at h
  rw [Nat.lor_comm]
  exact h.symm

/-! ### Branch lemmas for one read-acquisition iteration -/

theorem rw_read_lock_try_none_of_flag {w s : Nat}
    (hflag : s &&& WRITE_FLAG w ≠ 0) : rw_read_lock_try w s = none := by
  unfold rw_read_lock_try
  rw [if_pos hflag]

theorem rw_read_lock_try_none_of_carry {w s : Nat}
    (hflag : s &&& WRITE_FLAG w = 0) (hlt : s + 1 < 2 ^ w)
    (hcarry : (s + 1) &&& WRITE_FLAG w ≠ 0) :
    rw_read_lock_try w s = none := by
  unfold rw_read_lock_try checked_add
  rw [if_neg (by simp [hflag]), if_pos hlt]
  simp only [if_pos hcarry]

theorem rw_read_lock_try_some {w s : Nat}
    (hflag : s &&& WRITE_FLAG w = 0) (hlt : s + 1 < 2 ^ w)
    (hnext : (s + 1) &&& WRITE_FLAG w = 0) :
    rw_read_lock_try w s = some (s + 1) := by
  unfold rw_read_lock_try checked_add
  rw [if_neg (by simp [hflag]), if_pos hlt]
  simp only [if_neg (by simp [hnext] : ¬ (s + 1) &&& WRITE_FLAG w ≠ 0)]

/-! ### Theorems for the `SpinRwLock` claims -/

/-- C9: `rw_read_unlock_atomic` is an unconditional wrapping decrement with
no underflow guard: on the counter state `0` it wraps to the all-ones word
`2^w - 1`, whose write flag is set and whose reader count is the maximal
value `2^(w-1) - 1`. -/
theorem C9_read_unlock_wraps_on_zero (w : Nat) (h : 1 ≤ w) :
    rw_read_unlock_atomic w 0 = 2 ^ w - 1 ∧
    write_flag_set w (2 ^ w - 1) = true ∧
    reader_count w (2 ^ w - 1) = 2 ^ (w - 1) - 1 := by
  have hsplit := two_pow_split w h
  have hpos : 0 < 2 ^ (w - 1) := by positivity
  have hones : 2 ^ w - 1 = 2 ^ (w - 1) + (2 ^ (w - 1) - 1) := by omega
  refine ⟨?_, ?_, ?_⟩
  · unfold rw_read_unlock_atomic
    rw [Nat.zero_add, Nat.mod_eq_of_lt (by omega)]
  · unfold write_flag_set
    rw [hones, land_flag_of_add (by omega)]
    have hWpos : 0 < WRITE_FLAG w := by rw [WRITE_FLAG_eq]; positivity
    simp only [bne_iff_ne, ne_eq]
    omega
  · unfold reader_count
    rw [land_NOT_WRITE_FLAG w _ h, hones, Nat.add_mod_left,
      Nat.mod_eq_of_lt (by omega)]

/-- C9 witness at word width 64. -/
theorem C9_witness :
    rw_read_unlock_atomic 64 0 = 2 ^ 64 - 1 ∧
    write_flag_set 64 (2 ^ 64 - 1) = true ∧
    reader_count 64 (2 ^ 64 - 1) = 2 ^ (64 - 1) - 1 :=
  C9_read_unlock_wraps_on_zero 64 (by decide)

/-- C10: for every in-range counter whose write flag is clear, adding one
cannot overflow the `w`-bit word, so `checked_add` succeeds and its `None`
arm is unreachable; `checked_add` can only fail on the all-ones state,
which has the write flag set and is filtered by the preceding check. -/
theorem C10_checked_add_none_unreachable (w s : Nat) (h : 1 ≤ w)
    (hs : s < 2 ^ w) :
    (s &&& WRITE_FLAG w = 0 → checked_add w s 1 = some (s + 1)) ∧
    (checked_add w s 1 = none → s = 2 ^ w - 1 ∧ s &&& WRITE_FLAG w ≠ 0) := by
  have hsplit := two_pow_split w h
  have hpos : 0 < 2 ^ (w - 1) := by positivity
  constructor
  · intro hflag
    have hlt := lt_two_pow_pred_of_land_flag_eq_zero h hs hflag
    unfold checked_add
    rw [if_pos (by omega)]
  · intro hnone
    unfold checked_add at hnone
    have hge : ¬ s + 1 < 2 ^ w := by
      by_contra hc
      rw [if_pos hc] at hnone
      cases hnone
    have hse : s = 2 ^ w - 1 := by omega
    refine ⟨hse, ?_⟩
    subst hse
    have hones : 2 ^ w - 1 = 2 ^ (w - 1) + (2 ^ (w - 1) - 1) := by omega
    rw [hones, land_flag_of_add (by omega), WRITE_FLAG_eq]
    omega

/-- C10 witness at word width 64, counter 0. -/
theorem C10_witness :
    ((0 : Nat) &&& WRITE_FLAG 64 = 0 → checked_add 64 0 1 = some (0 + 1)) ∧
    (checked_add 64 0 1 = none →
      (0 : Nat) = 2 ^ 64 - 1 ∧ (0 : Nat) &&& WRITE_FLAG 64 ≠ 0) :=
  C10_checked_add_none_unreachable 64 0 (by decide) (by positivity)

/-- C5: with the reader count at its maximum representable value
`WRITE_FLAG - 1` (write flag clear), a read-acquisition iteration spins
without any transition — the counter is left unchanged and the write flag
is never set; after one read release decrements the counter, a
read-acquisition iteration succeeds. -/
theorem C5_reader_overflow_spins (w : Nat) (h : 2 ≤ w) :
    rw_read_lock_try w (WRITE_FLAG w - 1) = none ∧
    rw_read_unlock_atomic w (WRITE_FLAG w - 1) = WRITE_FLAG w - 2 ∧
    rw_read_lock_try w (WRITE_FLAG w - 2) = some (WRITE_FLAG w - 1) := by
  have h1 : 1 ≤ w := by omega
  have hsplit := two_pow_split w h1
  have hWF := WRITE_FLAG_eq w
  have hge2 : 2 ≤ 2 ^ (w - 1) := by
    calc 2 = 2 ^ 1 := rfl
    _ ≤ 2 ^ (w - 1) := Nat.pow_le_pow_right (by omega) (by omega)
  refine ⟨?_, ?_, ?_⟩
  · have e1 : WRITE_FLAG w - 1 + 1 = WRITE_FLAG w := by rw [hWF]; omega
    refine rw_read_lock_try_none_of_carry
      (land_flag_eq_zero_of_lt (by rw [hWF]; omega)) (by rw [e1, hWF]; omega) ?_
    rw [e1, Nat.and_self, hWF]
    omega
  · unfold rw_read_unlock_atomic
    have e2 : WRITE_FLAG w - 1 + (2 ^ w - 1) = (WRITE_FLAG w - 2) + 2 ^ w := by
      rw [hWF]; omega
    rw [e2, Nat.add_mod_right, Nat.mod_eq_of_lt (by rw [hWF]; omega)]
  · have e3 : WRITE_FLAG w - 2 + 1 = WRITE_FLAG w - 1 := by rw [hWF]; omega
    have hres := rw_read_lock_try_some
      (land_flag_eq_zero_of_lt (by rw [hWF]; omega) :
        (WRITE_FLAG w - 2) &&& WRITE_FLAG w = 0)
      (by rw [e3, hWF]; omega)
      (by rw [e3]; exact land_flag_eq_zero_of_lt (by rw [hWF]; omega))
    rw [e3] at hres
    exact hres

/-- C5 witness at word width 64. -/
theorem C5_witness :
    rw_read_lock_try 64 (WRITE_FLAG 64 - 1) = none ∧
    rw_read_unlock_atomic 64 (WRITE_FLAG 64 - 1) = WRITE_FLAG 64 - 2 ∧
    rw_read_lock_try 64 (WRITE_FLAG 64 - 2) = some (WRITE_FLAG 64 - 1) :=
  C5_reader_overflow_spins 64 (by decide)

/-- C1 is refuted on the code: at word width 64, starting from the initial
counter `0`, one successful read acquisition followed by the successful
CAS of `rw_write_lock_atomic` (which sets the write flag while leaving the
reader bits as observed) reaches the state `2^63 + 1`, in which the write
flag is set while the reader count is `1` — so an interval with the write
flag set and a simultaneously nonzero reader count does exist. -/
theorem C1_counterexample :
    RwReachable 64 (2 ^ 63 + 1) ∧
    write_flag_set 64 (2 ^ 63 + 1) = true ∧
    reader_count 64 (2 ^ 63 + 1) = 1 := by
  refine ⟨?_, by decide, by decide⟩
  have s1 : RwStep 64 0 1 := RwStep.readAcq (by decide)
  have s2 : RwStep 64 1 (2 ^ 63 + 1) := RwStep.writeAcqFlag (by decide)
  exact RwReachable.step (RwReachable.step RwReachable.init s1) s2

/-- C1 (amended): the write flag and a nonzero reader count are not
mutually exclusive at all times — the CAS of a write acquisition sets the
flag while already-admitted readers still hold, until they drain.  What
the code does guarantee: a read acquisition succeeds only from a state
whose write flag is clear and never sets the flag, and the drain loop of a
write acquisition exits only when the reader count is zero, so a completed
write acquisition holds the flag with no readers admitted. -/
theorem C1_amended_read_write_exclusion (w s t : Nat) :
    (rw_read_lock_try w s = some t →
      write_flag_set w s = false ∧ write_flag_set w t = false) ∧
    (rw_write_drain_done w s = true → reader_count w s = 0) := by
  constructor
  · intro hsome
    unfold rw_read_lock_try at hsome
    split at hsome
    · cases hsome
    · rename_i hflag
      split at hsome
      · cases hsome
      · rename_i next hca
        split at hsome
        · cases hsome
        · rename_i hnext
          obtain rfl := Option.some.inj hsome
          push_neg at hflag hnext
          constructor
          · simp [write_flag_set, hflag]
          · simp [write_flag_set, hnext]
  · intro hdone
    unfold rw_write_drain_done at hdone
    unfold reader_count
    simpa using hdone

/-- C1 amended witness: a successful read acquisition at width 64 from the
empty counter starts and ends with the write flag clear. -/
theorem C1_amended_witness :
    write_flag_set 64 0 = false ∧ write_flag_set 64 1 = false :=
  (C1_amended_read_write_exclusion 64 0 1).1 (by decide)

/-- C7: every `SpinRwLock` operation is independent of the Gate: a system
step never changes the gate flag, and the identical counter transition is
available under either gate value — the operations never consult the
gate. -/
theorem C7_rw_ops_gate_independent (w : Nat) (p q : RwSysState)
    (h : RwSysStep w p q) :
    q.gate = p.gate ∧ ∀ g : Bool, RwSysStep w ⟨g, p.rw⟩ ⟨g, q.rw⟩ := by
  cases h with
  | readAcq hc => exact ⟨rfl, fun g => RwSysStep.readAcq hc⟩
  | readRel => exact ⟨rfl, fun g => RwSysStep.readRel⟩
  | writeAcqFlag hc => exact ⟨rfl, fun g => RwSysStep.writeAcqFlag hc⟩
  | writeRel => exact ⟨rfl, fun g => RwSysStep.writeRel⟩

/-- C7 witness: the read acquisition available with the gate `false` is
also available with the gate `true`. -/
theorem C7_witness : RwSysStep 64 ⟨true, 0⟩ ⟨true, 1⟩ :=
  (C7_rw_ops_gate_independent 64 ⟨false, 0⟩ ⟨false, 1⟩
    (RwSysStep.readAcq (by decide))).2 true

end Mutex
